import Mathlib

/-
  Verification development for the event lifecycle engine of the
  mmhw backend (NestJS service `EventsService` plus the cron sweeps in
  `EventsCronService`).

  The embedding is shallow: each service method that the claims mention is
  translated to a pure Lean function over explicit state.  Database rows
  become records, timestamps are integers (milliseconds), coordinates and
  distances are rationals, and fallible endpoints return `Except ApiError`.
  The floating point haversine computation `calculateDistance` is abstracted
  as a distance-function parameter; every threshold comparison that the
  service performs on its result is embedded verbatim.
-/

namespace Mmhw

/-- Error outcomes of the service endpoints, mirroring the NestJS exception
classes thrown by `EventsService` (NotFoundException, ForbiddenException,
BadRequestException). -/
inductive ApiError where
  | notFound
  | forbidden
  | badRequest
deriving DecidableEq, Repr

/-- Lifecycle states of an event, from the `event_status` enum.  The
constructor `onSitePartly` models the source status `on_site_partial` and
`onSiteConfirmed` models `on_site_confirmed`. -/
inductive EventStatus where
  | scheduled
  | matched
  | revalidationPending
  | active
  | onSitePartly
  | onSiteConfirmed
  | completed
  | cancelled
  | cancelledNoRevalidation
  | cancelledGeoMismatch
  | expired
deriving DecidableEq, Repr

/-- States of a join request, from the `event_request_status` enum. -/
inductive RequestStatus where
  | pending
  | accepted
  | declined
  | cancelled
deriving DecidableEq, Repr

/-- Per-role check-in states, from the `check_in_status` enum. -/
inductive CheckInStatus where
  | pending
  | checkedIn
  | noShow
deriving DecidableEq, Repr

/-- A geographic coordinate pair, as stored in the json `hub_location`
column. -/
structure Location where
  lat : ℚ
  lng : ℚ
deriving DecidableEq, Repr

/-- Milliseconds in one minute. -/
def minuteMs : Int := 60000

/-- Milliseconds in one hour. -/
def hourMs : Int := 3600000

/-- Milliseconds in one day. -/
def dayMs : Int := 86400000

/-- Constant MESSAGE_LIMIT from events.service: messages per person. -/
def MESSAGE_LIMIT : Nat := 5

/-- Constant HOME_DISTANCE_KM from events.service: the creator must be within
this many kilometres of the event location at revalidation. -/
def HOME_DISTANCE_KM : ℚ := 10

/-- Constant CHECK_IN_DISTANCE_METERS from events.service: users must be
within this many metres to check in. -/
def CHECK_IN_DISTANCE_METERS : ℚ := 100

/-- Constant MIN_SCHEDULE_HOURS from events.service. -/
def MIN_SCHEDULE_HOURS : Int := 2

/-- Constant MAX_SCHEDULE_DAYS from events.service. -/
def MAX_SCHEDULE_DAYS : Int := 7

/-- Constant FEEDBACK_REMINDER_HOURS from events-cron.service: auto-complete
after this many hours without feedback. -/
def FEEDBACK_REMINDER_HOURS : Int := 24

/-- A message in an event chat, mirroring the `event_messages` row inserted
by `sendMessage` (the sender is identified here only by role). -/
structure EventMessage where
  senderIsCreator : Bool
  content : String
  messageNumber : Nat
deriving DecidableEq, Repr

/-- The mutable chat state of an event, mirroring the `event_chats` row
(counters, lock flag) together with its message rows. -/
structure EventChat where
  isLocked : Bool
  creatorMessageCount : Nat
  participantMessageCount : Nat
  messages : List EventMessage
deriving DecidableEq, Repr

/-- Embedding of `EventsService.lockChat`: set `isLocked` on the chat row
(the `lockedAt` timestamp column is not tracked here). -/
def lockChat (chat : EventChat) : EventChat :=
  { chat with isLocked := true }

/-- Embedding of the chat portion of `EventsService.sendMessage`.  The
caller has already passed the event lookup and membership guards; `isCreator`
is the role computed there.  Mirrors the source order: locked check, per-role
counter check, message insert with `messageNumber = currentCount + 1`,
counter update, then lock when both updated counters have reached
MESSAGE_LIMIT. -/
def sendMessage (isCreator : Bool) (content : String) (chat : EventChat) :
    Except ApiError (EventChat × EventMessage) :=
  if chat.isLocked then
    .error .badRequest
  else
    let currentCount :=
      if isCreator then chat.creatorMessageCount else chat.participantMessageCount
    if currentCount ≥ MESSAGE_LIMIT then
      .error .badRequest
    else
      let message : EventMessage :=
        { senderIsCreator := isCreator, content := content,
          messageNumber := currentCount + 1 }
      let chat1 :=
        if isCreator then
          { chat with creatorMessageCount := currentCount + 1,
                      messages := chat.messages ++ [message] }
        else
          { chat with participantMessageCount := currentCount + 1,
                      messages := chat.messages ++ [message] }
      let chat2 :=
        if chat1.creatorMessageCount ≥ MESSAGE_LIMIT ∧
            chat1.participantMessageCount ≥ MESSAGE_LIMIT then
          lockChat chat1
        else
          chat1
      .ok (chat2, message)

/-- One send attempt viewed as a state transition: a rejected send leaves the
chat rows untouched (the service throws before any write). -/
def sendStep (chat : EventChat) (req : Bool × String) : EventChat :=
  match sendMessage req.1 req.2 chat with
  | .ok (chat1, _) => chat1
  | .error _ => chat

/-- An `events` row.  Hub metadata that no claim inspects (hubId, hubName,
hubType, hubAddress, activityType) is omitted; all columns that the claimed
operations read or write are present.  Timestamps are milliseconds. -/
structure Event where
  id : Nat
  creatorId : String
  participantId : Option String
  status : EventStatus
  hubLocation : Location
  scheduledStartTime : Int
  duration : Int
  expiresAt : Int
  matchedAt : Option Int
  completedAt : Option Int
  creatorCheckInStatus : CheckInStatus
  participantCheckInStatus : CheckInStatus
  creatorCheckInAt : Option Int
  participantCheckInAt : Option Int
  creatorCheckInLocation : Option Location
  participantCheckInLocation : Option Location
  revalidationSentAt : Option Int
  revalidationRespondedAt : Option Int
  revalidationConfirmed : Option Bool
  revalidationLocation : Option Location
  feedbackReminderSentAt : Option Int
deriving DecidableEq, Repr

/-- Embedding of `EventsService.revalidateEvent` after the event lookup (a
missing event is a NotFound before this logic runs).  `dist` abstracts the
floating point haversine `calculateDistance`; the service compares its result
in metres against `HOME_DISTANCE_KM * 1000`.  Mirrors the source order:
creator guard, status guard, declined branch, distance branch, confirm
branch. -/
def revalidateEvent (dist : Location → Location → ℚ) (now : Int)
    (userId : String) (event : Event) (confirmed : Bool) (location : Location) :
    Except ApiError Event :=
  if event.creatorId ≠ userId then
    .error .forbidden
  else if event.status ≠ .revalidationPending then
    .error .badRequest
  else if ¬ confirmed then
    .ok { event with status := .cancelledNoRevalidation,
                     revalidationRespondedAt := some now,
                     revalidationConfirmed := some false }
  else
    let distance := dist location event.hubLocation
    if distance > HOME_DISTANCE_KM * 1000 then
      .ok { event with status := .cancelledGeoMismatch,
                       revalidationRespondedAt := some now,
                       revalidationConfirmed := some false,
                       revalidationLocation := some location }
    else
      .ok { event with status := .active,
                       revalidationRespondedAt := some now,
                       revalidationConfirmed := some true,
                       revalidationLocation := some location }

/-- Embedding of `EventsService.checkInEvent` after the event lookup.
Mirrors the source order: membership guard, status guard (`active` or
`on_site_partial`), per-role already-checked-in guard, distance guard against
CHECK_IN_DISTANCE_METERS, then the per-role update with the new status
(`on_site_confirmed` when the other role is already checked in, otherwise
`on_site_partial`). -/
def checkInEvent (dist : Location → Location → ℚ) (now : Int)
    (userId : String) (event : Event) (location : Location) :
    Except ApiError Event :=
  if event.creatorId ≠ userId ∧ event.participantId ≠ some userId then
    .error .forbidden
  else if event.status ≠ .active ∧ event.status ≠ .onSitePartly then
    .error .badRequest
  else
    let isCreator := event.creatorId == userId
    if isCreator ∧ event.creatorCheckInStatus = .checkedIn then
      .error .badRequest
    else if ¬ isCreator ∧ event.participantCheckInStatus = .checkedIn then
      .error .badRequest
    else
      let distance := dist location event.hubLocation
      if distance > CHECK_IN_DISTANCE_METERS then
        .error .badRequest
      else
        let otherUserCheckedIn : Bool :=
          if isCreator then event.participantCheckInStatus == .checkedIn
          else event.creatorCheckInStatus == .checkedIn
        let newStatus :=
          if otherUserCheckedIn then EventStatus.onSiteConfirmed
          else EventStatus.onSitePartly
        if isCreator then
          .ok { event with creatorCheckInStatus := .checkedIn,
                           creatorCheckInAt := some now,
                           creatorCheckInLocation := some location,
                           status := newStatus }
        else
          .ok { event with participantCheckInStatus := .checkedIn,
                           participantCheckInAt := some now,
                           participantCheckInLocation := some location,
                           status := newStatus }

/-- One check-in attempt viewed as a state transition on the event row: a
rejected check-in leaves the row untouched (the service throws before any
write). -/
def checkInStep (dist : Location → Location → ℚ) (now : Int)
    (userId : String) (event : Event) (location : Location) : Event :=
  match checkInEvent dist now userId event location with
  | .ok event1 => event1
  | .error _ => event

/-- An `event_requests` row. -/
structure EventRequest where
  id : Nat
  eventId : Nat
  requesterId : String
  status : RequestStatus
  createdAt : Int
  respondedAt : Option Int
deriving DecidableEq, Repr

/-- The slice of the database that the join-request workflow touches: the
`events` and `event_requests` tables.  Fresh primary keys are modelled by
counters (the source uses generated uuids). -/
structure Db where
  events : List Event
  requests : List EventRequest
  nextEventId : Nat
  nextRequestId : Nat
deriving DecidableEq, Repr

/-- Lookup of an event row by primary key (`db.query.events.findFirst`). -/
def findEvent (db : Db) (eventId : Nat) : Option Event :=
  db.events.find? (fun e => e.id == eventId)

/-- Lookup of a request row by primary key
(`db.query.eventRequests.findFirst`). -/
def findRequest (db : Db) (requestId : Nat) : Option EventRequest :=
  db.requests.find? (fun r => r.id == requestId)

/-- An `update(events).set(...).where(eq(events.id, eventId))` statement:
apply `f` to every event row whose id matches. -/
def updateEvent (db : Db) (eventId : Nat) (f : Event → Event) : Db :=
  { db with events := db.events.map (fun e => if e.id = eventId then f e else e) }

/-- Embedding of `EventsService.requestToJoinEvent`.  Mirrors the source
order: event lookup, status guard, own-event guard, start-time guard, then
the duplicate check — note that the source `findFirst` filters only on
(eventId, requesterId) and not on the request status, so a prior request of
any status (including cancelled) blocks a new one.  Side effects on other
tables (notifications) are omitted. -/
def requestToJoinEvent (now : Int) (userId : String) (eventId : Nat)
    (db : Db) : Except ApiError (Db × EventRequest) :=
  match findEvent db eventId with
  | none => .error .notFound
  | some event =>
    if event.status ≠ .scheduled then
      .error .badRequest
    else if event.creatorId = userId then
      .error .badRequest
    else if event.scheduledStartTime < now then
      .error .badRequest
    else
      match db.requests.find?
          (fun r => r.eventId == eventId && r.requesterId == userId) with
      | some _ => .error .badRequest
      | none =>
        let request : EventRequest :=
          { id := db.nextRequestId, eventId := eventId, requesterId := userId,
            status := .pending, createdAt := now, respondedAt := none }
        .ok ({ db with requests := db.requests ++ [request],
                       nextRequestId := db.nextRequestId + 1 }, request)

/-- Embedding of `EventsService.respondToEventRequest`.  Mirrors the source
order: request lookup (with its event), creator guard, pending guard, request
status update, and on accept the event update (status matched, participantId,
matchedAt) followed by the decline of every other pending request of the
event.  Chat creation, stats updates and notifications touch other tables
only and are omitted.  The source has no guard on the event status: a pending
request is accepted even when its event is already matched. -/
def respondToEventRequest (now : Int) (userId : String) (requestId : Nat)
    (accept : Bool) (db : Db) : Except ApiError Db :=
  match findRequest db requestId with
  | none => .error .notFound
  | some request =>
    match findEvent db request.eventId with
    | none => .error .notFound
    | some event =>
      if event.creatorId ≠ userId then
        .error .forbidden
      else if request.status ≠ .pending then
        .error .badRequest
      else
        let db1 : Db :=
          { db with requests := db.requests.map (fun r =>
              if r.id = requestId then
                { r with status := if accept then .accepted else .declined,
                         respondedAt := some now }
              else r) }
        if accept then
          let db2 := updateEvent db1 request.eventId (fun e =>
            { e with status := .matched,
                     participantId := some request.requesterId,
                     matchedAt := some now })
          let db3 : Db :=
            { db2 with requests := db2.requests.map (fun r =>
                if r.eventId = request.eventId ∧ r.status = .pending ∧
                    r.id ≠ requestId then
                  { r with status := .declined, respondedAt := some now }
                else r) }
          .ok db3
        else
          .ok db1

/-- A `user_stats` row; every counter defaults to 0 per the schema. -/
structure UserStats where
  totalPoints : Int := 0
  currentStreak : Int := 0
  longestStreak : Int := 0
  lastMeetupDate : Option Int := none
  eventsCreated : Int := 0
  eventsJoined : Int := 0
  eventsCompleted : Int := 0
  eventsCancelled : Int := 0
  noShows : Int := 0
  positiveRatings : Int := 0
  neutralRatings : Int := 0
  negativeRatings : Int := 0
  reportsReceived : Int := 0
  reportsMade : Int := 0
  isSuspended : Bool := false
  suspendedUntil : Option Int := none
deriving DecidableEq, Repr

/-- The default row inserted by `getUserStats` when a user has none. -/
def defaultStats : UserStats := {}

/-- Embedding of `EventsService.getUserStats` over an association list for
the `user_stats` table: return the row of the user, or the default row that
the source would insert. -/
def getStats (userId : String) (stats : List (String × UserStats)) :
    UserStats :=
  match stats.find? (fun p => p.1 == userId) with
  | some p => p.2
  | none => defaultStats

/-- Read-modify-write of one user row, as `incrementStats` and the direct
`update(userStats)` statements do; a missing row is created first
(`getUserStats` inserts it). -/
def updateStatsEntry (userId : String) (f : UserStats → UserStats)
    (stats : List (String × UserStats)) : List (String × UserStats) :=
  match stats.find? (fun p => p.1 == userId) with
  | some _ => stats.map (fun p => if p.1 = userId then (p.1, f p.2) else p)
  | none => stats ++ [(userId, f defaultStats)]

/-- Embedding of `EventsService.addPoints`: `totalPoints` grows by `points`
via a sql increment. -/
def addPoints (points : Int) (s : UserStats) : UserStats :=
  { s with totalPoints := s.totalPoints + points }

/-- The event statuses that block a new event by the same creator in
`createEvent`. -/
def activeStatuses : List EventStatus :=
  [.scheduled, .matched, .revalidationPending, .active, .onSitePartly,
   .onSiteConfirmed]

/-- The dto fields of `createEvent` that the claims inspect. -/
structure CreateEventDto where
  hubLocation : Location
  scheduledStartTime : Int
  duration : Int
deriving DecidableEq, Repr

/-- Embedding of `EventsService.createEvent`.  Mirrors the source order:
suspension guard (`isSuspended` and `suspendedUntil` strictly in the future),
existing active-or-scheduled-event guard, minimum and maximum scheduling
window guards, then the insert with `expiresAt` one hour before the
scheduled start, plus the stats update (eventsCreated + 1 and 5 points). -/
def createEvent (now : Int) (userId : String) (dto : CreateEventDto)
    (db : Db) (stats : UserStats) :
    Except ApiError (Db × UserStats × Event) :=
  if stats.isSuspended &&
      (match stats.suspendedUntil with
       | some t => decide (t > now)
       | none => false) then
    .error .forbidden
  else if db.events.any (fun e =>
      e.creatorId == userId && activeStatuses.contains e.status) then
    .error .badRequest
  else if dto.scheduledStartTime < now + MIN_SCHEDULE_HOURS * hourMs then
    .error .badRequest
  else if dto.scheduledStartTime > now + MAX_SCHEDULE_DAYS * dayMs then
    .error .badRequest
  else
    let event : Event :=
      { id := db.nextEventId, creatorId := userId, participantId := none,
        status := .scheduled, hubLocation := dto.hubLocation,
        scheduledStartTime := dto.scheduledStartTime,
        duration := dto.duration,
        expiresAt := dto.scheduledStartTime - hourMs,
        matchedAt := none, completedAt := none,
        creatorCheckInStatus := .pending, participantCheckInStatus := .pending,
        creatorCheckInAt := none, participantCheckInAt := none,
        creatorCheckInLocation := none, participantCheckInLocation := none,
        revalidationSentAt := none, revalidationRespondedAt := none,
        revalidationConfirmed := none, revalidationLocation := none,
        feedbackReminderSentAt := none }
    let stats1 := addPoints 5 { stats with eventsCreated := stats.eventsCreated + 1 }
    .ok ({ db with events := db.events ++ [event],
                   nextEventId := db.nextEventId + 1 }, stats1, event)

/-- Embedding of `EventsCronService.expireEvents`: one sweep run at `now`
moves every event with status scheduled and `expiresAt ≤ now` to expired and
touches nothing else. -/
def expireEvents (now : Int) (evs : List Event) : List Event :=
  evs.map (fun e =>
    if e.status = .scheduled ∧ e.expiresAt ≤ now then
      { e with status := .expired }
    else e)

/-- The row filter of `EventsCronService.autoCompleteEvents`: status
on_site_confirmed and `feedbackReminderSentAt ≤ now − 24h` (a null
`feedbackReminderSentAt` never satisfies the sql `lte`). -/
def autoCompleteSelect (now : Int) (e : Event) : Bool :=
  e.status == .onSiteConfirmed &&
    (match e.feedbackReminderSentAt with
     | some t => t ≤ now - FEEDBACK_REMINDER_HOURS * hourMs
     | none => false)

/-- The `eventsCompleted` sql increment that `autoCompleteEvents` applies to
one user row. -/
def bumpCompleted (userId : String) (stats : List (String × UserStats)) :
    List (String × UserStats) :=
  stats.map (fun p =>
    if p.1 = userId then
      (p.1, { p.2 with eventsCompleted := p.2.eventsCompleted + 1 })
    else p)

/-- Embedding of `EventsCronService.autoCompleteEvents`: one sweep run at
`now` sets every selected event to completed with `completedAt = now` and
increments `eventsCompleted` for the creator and (when present) the
participant of each selected event.  The source updates no other stats
column in this sweep. -/
def autoCompleteEvents (now : Int) (evs : List Event)
    (stats : List (String × UserStats)) :
    List Event × List (String × UserStats) :=
  let evs2 := evs.map (fun e =>
    if autoCompleteSelect now e then
      { e with status := .completed, completedAt := some now }
    else e)
  let stats2 := (evs.filter (autoCompleteSelect now)).foldl (fun st e =>
    let st1 := bumpCompleted e.creatorId st
    match e.participantId with
    | some pid => bumpCompleted pid st1
    | none => st1) stats
  (evs2, stats2)

/-- The milestone list of `checkAndNotifyPointsMilestone`. -/
def pointsMilestones : List Int := [100, 500, 1000, 2500, 5000, 10000]

/-- The milestone list of `checkAndNotifyEventsMilestone`. -/
def eventsMilestones : List Int := [1, 5, 10, 25, 50, 100]

/-- Embedding of the decision in `checkAndNotifyPointsMilestone`: an email is
sent exactly when `milestones.includes(totalPoints)` holds — a membership
test on the exact current value. -/
def notifiesPointsMilestone (totalPoints : Int) : Bool :=
  pointsMilestones.contains totalPoints

/-- Embedding of the decision in `checkAndNotifyEventsMilestone`: an email is
sent exactly when `milestones.includes(eventsCompleted)` holds. -/
def notifiesEventsMilestone (eventsCompleted : Int) : Bool :=
  eventsMilestones.contains eventsCompleted

/-- Kind of a stats milestone email (the `type` field of the payload handed
to `emailService.sendStatsCompletionEmail`). -/
inductive MilestoneKind where
  | points
  | events
deriving DecidableEq, Repr

/-- One milestone email, as sent by `sendStatsCompletionEmail` (its `type`
and `value` payload fields). -/
structure MilestoneEmail where
  kind : MilestoneKind
  value : Int
deriving DecidableEq, Repr

/-- Embedding of `checkAndNotifyPointsMilestone` as the list of emails it
sends: one email exactly when `milestones.includes(totalPoints)` holds. -/
def pointsMilestoneEmails (totalPoints : Int) : List MilestoneEmail :=
  if pointsMilestones.contains totalPoints then
    [{ kind := .points, value := totalPoints }]
  else []

/-- Embedding of `checkAndNotifyEventsMilestone` as the list of emails it
sends: one email exactly when `milestones.includes(eventsCompleted)`
holds. -/
def eventsMilestoneEmails (eventsCompleted : Int) : List MilestoneEmail :=
  if eventsMilestones.contains eventsCompleted then
    [{ kind := .events, value := eventsCompleted }]
  else []

/-- The stats mutation and milestone emails that the both-feedback-submitted
branch of `submitFeedback` applies to ONE of the two users: eventsCompleted
grows by one (`incrementStats`), totalPoints by twenty (`addPoints 20`),
the streak update touches neither counter, and then the two milestone
checks run on the re-read row (`getUserStats` after the writes), events
check before points check as in the source call order. -/
def feedbackCompletionUpdate (s : UserStats) :
    UserStats × List MilestoneEmail :=
  let s1 := addPoints 20 { s with eventsCompleted := s.eventsCompleted + 1 }
  (s1, eventsMilestoneEmails s1.eventsCompleted ++
       pointsMilestoneEmails s1.totalPoints)

/-- Milestone emails of the `createEvent` stats mutation (eventsCreated + 1
and `addPoints 5`): the source runs no milestone check in this path, so
none are sent even when the five point award lands exactly on a
threshold. -/
def createEventMilestoneEmails : List MilestoneEmail := []

/-- Milestone emails of the accepting `respondToEventRequest` stats
mutations (`eventsJoined + 1` for the requester and `addPoints 10` for each
side): the source runs no milestone check in this path. -/
def acceptRequestMilestoneEmails : List MilestoneEmail := []

/-- Milestone emails of the `autoCompleteEvents` sweep (eventsCompleted + 1
for both users): the source runs no milestone check in this path, so none
are sent even when a counter lands exactly on a threshold (for example a
first event auto-completing to eventsCompleted = 1). -/
def autoCompleteMilestoneEmails : List MilestoneEmail := []

/-- Embedding of `EventsService.reportUser` over the `user_stats` table (the
`user_reports` insert touches no claimed state and is omitted).  Mirrors the
source order: self-report guard, reportsReceived and reportsMade increments,
then the auto-suspension once the updated `reportsReceived` is at least 5,
with `suspendedUntil` 24 hours in the future. -/
def reportUser (now : Int) (userId reportedId : String)
    (stats : List (String × UserStats)) :
    Except ApiError (List (String × UserStats)) :=
  if userId = reportedId then
    .error .badRequest
  else
    let st1 := updateStatsEntry reportedId
      (fun s => { s with reportsReceived := s.reportsReceived + 1 }) stats
    let st2 := updateStatsEntry userId
      (fun s => { s with reportsMade := s.reportsMade + 1 }) st1
    let reported := getStats reportedId st2
    if reported.reportsReceived ≥ 5 then
      .ok (updateStatsEntry reportedId
        (fun s => { s with isSuspended := true,
                           suspendedUntil := some (now + dayMs) }) st2)
    else
      .ok st2

/-- The per-row effect on the `event_requests` table of one accepting
respondToEventRequest call: the accepted request is marked accepted, every
other pending request of the same event is declined, everything else is
untouched.  This is the composition of the two sequential updates the
source issues. -/
def acceptRequestRewrite (now : Int) (requestId evId : Nat) :
    EventRequest → EventRequest := fun r =>
  if r.id = requestId then
    { r with status := .accepted, respondedAt := some now }
  else if r.eventId = evId ∧ r.status = .pending ∧ r.id ≠ requestId then
    { r with status := .declined, respondedAt := some now }
  else r

/-- The per-row effect on the `events` table of one accepting
respondToEventRequest call. -/
def matchEventRewrite (now : Int) (evId : Nat) (requesterId : String) :
    Event → Event := fun e =>
  if e.id = evId then
    { e with status := .matched, participantId := some requesterId,
             matchedAt := some now }
  else e

/-- The stats table reportUser produces when the report suspends the
reported user: the two counter increments followed by the suspension
write. -/
def reportedSuspendedStats (now : Int) (reporter reported : String)
    (stats : List (String × UserStats)) : List (String × UserStats) :=
  updateStatsEntry reported
    (fun s => { s with isSuspended := true,
                       suspendedUntil := some (now + dayMs) })
    (updateStatsEntry reporter
      (fun s => { s with reportsMade := s.reportsMade + 1 })
      (updateStatsEntry reported
        (fun s => { s with reportsReceived := s.reportsReceived + 1 })
        stats))

/-- Number of accepted requests of one event. -/
def acceptedCount (db : Db) (eventId : Nat) : Nat :=
  db.requests.countP (fun r => decide (r.eventId = eventId ∧ r.status = .accepted))

/-- Some request of the event is still pending. -/
def hasPendingRequest (db : Db) (eventId : Nat) : Prop :=
  ∃ r ∈ db.requests, r.eventId = eventId ∧ r.status = .pending

/-- The event table holds a scheduled event under this id. -/
def scheduledEventAt (db : Db) (eventId : Nat) : Prop :=
  ∃ e ∈ db.events, e.id = eventId ∧ e.status = .scheduled

/-- The empty database. -/
def initDb : Db :=
  { events := [], requests := [], nextEventId := 0, nextRequestId := 0 }

/-- One state transition of the request workflow.  The request mutations are
the embedded service calls themselves; the constructors `create`,
`requestsDecline`, `eventsMap` and `purge` over-approximate every remaining
write the source performs on these two tables: `create` inserts a fresh
scheduled event (`createEvent`), `requestsDecline` turns some pending
requests into declined ones (the stale-request cron), `eventsMap` is any
per-row event update that preserves ids and never moves a row into the
scheduled status (cancel, revalidation dispatch and timeout and response,
check-in, feedback completion, the expiry and auto-complete sweeps), and
`purge` deletes event rows (the retention cron).  Proving the invariant
against this superset of behaviours covers the source behaviours. -/
inductive Step : Db → Db → Prop where
  | create (e : Event) (db : Db) :
      e.id = db.nextEventId → e.status = .scheduled →
      Step db { db with events := db.events ++ [e],
                        nextEventId := db.nextEventId + 1 }
  | requestJoin (now : Int) (userId : String) (eventId : Nat) (db db2 : Db)
      (req : EventRequest) :
      requestToJoinEvent now userId eventId db = .ok (db2, req) →
      Step db db2
  | respond (now : Int) (userId : String) (requestId : Nat) (accept : Bool)
      (db db2 : Db) :
      respondToEventRequest now userId requestId accept db = .ok db2 →
      Step db db2
  | requestsDecline (g : EventRequest → EventRequest) (db : Db) :
      (∀ r, g r = r ∨
        (r.status = .pending ∧ (g r).status = .declined ∧
          (g r).id = r.id ∧ (g r).eventId = r.eventId)) →
      Step db { db with requests := db.requests.map g }
  | eventsMap (f : Event → Event) (db : Db) :
      (∀ e, (f e).id = e.id) →
      (∀ e, (f e).status = .scheduled → f e = e) →
      Step db { db with events := db.events.map f }
  | purge (keep : Event → Bool) (db : Db) :
      Step db { db with events := db.events.filter keep }

/-- Databases reachable from the empty database through the workflow. -/
inductive Reachable : Db → Prop where
  | init : Reachable initDb
  | step (db db2 : Db) : Reachable db → Step db db2 → Reachable db2

/-- The inductive invariant of the request workflow: request ids are unique
and below the id counter, every request points below the event id counter,
every event id is below the counter, no event has two accepted requests, an
event with a pending request has no accepted one, and a scheduled event has
no accepted request. -/
structure DbInv (db : Db) : Prop where
  reqIdsNodup : (db.requests.map EventRequest.id).Nodup
  reqIdsFresh : ∀ r ∈ db.requests, r.id < db.nextRequestId
  evIdsFresh : ∀ e ∈ db.events, e.id < db.nextEventId
  reqEvIdsFresh : ∀ r ∈ db.requests, r.eventId < db.nextEventId
  acceptedOnce : ∀ eventId, acceptedCount db eventId ≤ 1
  pendingNoAccepted :
    ∀ eventId, hasPendingRequest db eventId → acceptedCount db eventId = 0
  scheduledNoAccepted :
    ∀ eventId, scheduledEventAt db eventId → acceptedCount db eventId = 0

/-- A scheduled event three hours out, used by the concrete instances. -/
def baseEvent : Event :=
  { id := 1, creatorId := "alice", participantId := none,
    status := .scheduled, hubLocation := { lat := 0, lng := 0 },
    scheduledStartTime := 100 * hourMs, duration := 120,
    expiresAt := 99 * hourMs, matchedAt := none, completedAt := none,
    creatorCheckInStatus := .pending, participantCheckInStatus := .pending,
    creatorCheckInAt := none, participantCheckInAt := none,
    creatorCheckInLocation := none, participantCheckInLocation := none,
    revalidationSentAt := none, revalidationRespondedAt := none,
    revalidationConfirmed := none, revalidationLocation := none,
    feedbackReminderSentAt := none }

/-- A database in which event 1 is already matched with participant carol
while request 7 by bob is still pending — the state of the acceptance
race. -/
def racedDb : Db :=
  { events := [{ baseEvent with status := .matched,
                                participantId := some "carol",
                                matchedAt := some 1 }],
    requests := [{ id := 7, eventId := 1, requesterId := "bob",
                   status := .pending, createdAt := 0, respondedAt := none }],
    nextEventId := 2, nextRequestId := 8 }

/-- The state respondToEventRequest produces from racedDb when alice
accepts the still pending request 7. -/
def racedAcceptedDb : Db :=
  { events := [{ baseEvent with
      status := .matched, participantId := some "bob",
      matchedAt := some 5 }],
    requests := [{
      id := 7, eventId := 1, requesterId := "bob",
      status := .accepted, createdAt := 0, respondedAt := some 5 }],
    nextEventId := 2, nextRequestId := 8 }

/-- A database in which the only prior request of bob for scheduled event 1
has status cancelled. -/
def cancelledReqDb : Db :=
  { events := [baseEvent],
    requests := [{ id := 3, eventId := 1, requesterId := "bob",
                   status := .cancelled, createdAt := 0,
                   respondedAt := none }],
    nextEventId := 2, nextRequestId := 4 }

/-- An on-site-confirmed event whose feedback reminder went out at time 0,
with both users holding some points. -/
def reminderEvent : Event :=
  { baseEvent with status := .onSiteConfirmed, participantId := some "bob",
                   feedbackReminderSentAt := some 0 }

/-- Stats table for the auto-complete instance. -/
def reminderStats : List (String × UserStats) :=
  [("alice", { totalPoints := 50 }), ("bob", { totalPoints := 70 })]

/-- Dto of an event scheduled three hours from time 0. -/
def threeHourDto : CreateEventDto :=
  { hubLocation := { lat := 0, lng := 0 }, scheduledStartTime := 3 * hourMs,
    duration := 120 }

/-- The event row that `createEvent 0 "alice" threeHourDto initDb
defaultStats` inserts. -/
def threeHourEvent : Event :=
  { id := 0, creatorId := "alice", participantId := none,
    status := .scheduled, hubLocation := { lat := 0, lng := 0 },
    scheduledStartTime := 3 * hourMs, duration := 120,
    expiresAt := 3 * hourMs - hourMs, matchedAt := none, completedAt := none,
    creatorCheckInStatus := .pending, participantCheckInStatus := .pending,
    creatorCheckInAt := none, participantCheckInAt := none,
    creatorCheckInLocation := none, participantCheckInLocation := none,
    revalidationSentAt := none, revalidationRespondedAt := none,
    revalidationConfirmed := none, revalidationLocation := none,
    feedbackReminderSentAt := none }

/-- The reminder event after the auto-complete sweep runs at time dayMs. -/
def completedReminderEvent : Event :=
  { reminderEvent with
      status := .completed, completedAt := some dayMs }

/-- The stats table after that sweep: both eventsCompleted counters moved
up by one and no points column changed. -/
def reminderStatsAfter : List (String × UserStats) :=
  [("alice", { totalPoints := 50, eventsCompleted := 1 }),
   ("bob", { totalPoints := 70, eventsCompleted := 1 })]

/-- First stage of a concrete workflow trace: the event is created. -/
def traceDb1 : Db :=
  { events := [threeHourEvent], requests := [], nextEventId := 1,
    nextRequestId := 0 }

/-- The pending join request of the concrete trace. -/
def traceReq : EventRequest :=
  { id := 0, eventId := 0, requesterId := "bob", status := .pending,
    createdAt := 100, respondedAt := none }

/-- Second stage of the concrete trace: bob has requested to join. -/
def traceDb2 : Db :=
  { events := [threeHourEvent], requests := [traceReq], nextEventId := 1,
    nextRequestId := 1 }

/-- The trace event after alice accepts the request of bob. -/
def matchedTraceEvent : Event :=
  { threeHourEvent with
      status := .matched, participantId := some "bob",
      matchedAt := some 200 }

/-- The trace request after acceptance. -/
def acceptedTraceReq : EventRequest :=
  { traceReq with status := .accepted, respondedAt := some 200 }

/-- Third stage of the concrete trace: alice accepted the request. -/
def traceDb3 : Db :=
  { events := [matchedTraceEvent], requests := [acceptedTraceReq],
    nextEventId := 1, nextRequestId := 1 }

/-- A send against a locked chat is rejected and leaves the chat unchanged. -/
theorem sendStep_locked (c : EventChat) (hc : c.isLocked = true)
    (r : Bool × String) : sendStep c r = c := by
  simp [sendStep, sendMessage, hc]

/-- C1: sendMessage is rejected whenever the chat is locked, for either
sender role and regardless of counters; after any accepted message the chat
is locked exactly when both per-role counters have reached MESSAGE_LIMIT;
and once locked the chat never changes again under any further sequence of
send attempts (so it never unlocks and no message is ever appended). -/
theorem C1_chat_quota_lock (chat : EventChat) (isCreator : Bool)
    (content : String) (reqs : List (Bool × String)) :
    (chat.isLocked = true →
      sendMessage isCreator content chat = .error .badRequest) ∧
    (∀ chat2 msg, sendMessage isCreator content chat = .ok (chat2, msg) →
      (chat2.isLocked = true ↔
        chat2.creatorMessageCount ≥ MESSAGE_LIMIT ∧
        chat2.participantMessageCount ≥ MESSAGE_LIMIT)) ∧
    (chat.isLocked = true → List.foldl sendStep chat reqs = chat) := by
  refine ⟨?_, ?_, ?_⟩
  · intro h
    simp [sendMessage, h]
  · intro chat2 msg h
    by_cases hL : chat.isLocked = true
    · simp [sendMessage, hL] at h
    · cases isCreator
      · by_cases hq : chat.participantMessageCount ≥ MESSAGE_LIMIT
        · simp [sendMessage, hL, hq] at h
        · by_cases hboth : chat.creatorMessageCount ≥ MESSAGE_LIMIT ∧
              chat.participantMessageCount + 1 ≥ MESSAGE_LIMIT
          · simp [sendMessage, hL, hq, hboth, lockChat] at h
            obtain ⟨h1, -⟩ := h
            subst h1
            simpa using hboth
          · simp [sendMessage, hL, hq, hboth] at h
            obtain ⟨h1, -⟩ := h
            subst h1
            simpa [hL] using fun hc hp => hboth ⟨hc, hp⟩
      · by_cases hq : chat.creatorMessageCount ≥ MESSAGE_LIMIT
        · simp [sendMessage, hL, hq] at h
        · by_cases hboth : chat.creatorMessageCount + 1 ≥ MESSAGE_LIMIT ∧
              chat.participantMessageCount ≥ MESSAGE_LIMIT
          · simp [sendMessage, hL, hq, hboth, lockChat] at h
            obtain ⟨h1, -⟩ := h
            subst h1
            simpa using hboth
          · simp [sendMessage, hL, hq, hboth] at h
            obtain ⟨h1, -⟩ := h
            subst h1
            simpa [hL] using fun hc hp => hboth ⟨hc, hp⟩
  · intro h
    induction reqs with
    | nil => rfl
    | cons r rs ih =>
      rw [List.foldl_cons, sendStep_locked chat h r]
      exact ih

/-- Witness for C1: a locked chat with both counters still zero rejects a
send from either role and stays fixed under further attempts, and an
accepted fifth participant message against counters (5, 4) locks the
chat. -/
theorem C1_chat_quota_lock_witness :
    (sendMessage true "hello"
      { isLocked := true, creatorMessageCount := 0,
        participantMessageCount := 0, messages := [] } =
      .error .badRequest) ∧
    (List.foldl sendStep
      { isLocked := true, creatorMessageCount := 0,
        participantMessageCount := 0, messages := [] }
      [(false, "hi"), (true, "yo")] =
      { isLocked := true, creatorMessageCount := 0,
        participantMessageCount := 0, messages := [] }) ∧
    (({ isLocked := true, creatorMessageCount := 5, participantMessageCount := 5,
        messages := [{ senderIsCreator := false, content := "m",
                       messageNumber := 5 }] } : EventChat).isLocked = true ↔
      (5 : Nat) ≥ MESSAGE_LIMIT ∧ (5 : Nat) ≥ MESSAGE_LIMIT) := by
  refine ⟨?_, ?_, ?_⟩
  · exact (C1_chat_quota_lock _ true "hello" []).1 rfl
  · exact (C1_chat_quota_lock _ true "x" [(false, "hi"), (true, "yo")]).2.2 rfl
  · exact (C1_chat_quota_lock
      { isLocked := false, creatorMessageCount := 5, participantMessageCount := 4,
        messages := [] } false "m" []).2.1
      { isLocked := true, creatorMessageCount := 5, participantMessageCount := 5,
        messages := [{ senderIsCreator := false, content := "m",
                       messageNumber := 5 }] }
      { senderIsCreator := false, content := "m", messageNumber := 5 } rfl

/-- C2: for an event in revalidation_pending whose caller is the creator,
revalidateEvent with confirmed=false cancels with no-revalidation; with
confirmed=true it cancels with geo-mismatch exactly when the computed
distance exceeds 10 km (strict comparison, so exactly 10000 m passes) and
otherwise records revalidationConfirmed=true and moves to active. -/
theorem C2_revalidation_outcomes (dist : Location → Location → ℚ)
    (now : Int) (userId : String) (event : Event) (location : Location)
    (hstatus : event.status = .revalidationPending)
    (hcreator : event.creatorId = userId) :
    (revalidateEvent dist now userId event false location =
      .ok { event with status := .cancelledNoRevalidation,
                       revalidationRespondedAt := some now,
                       revalidationConfirmed := some false }) ∧
    (dist location event.hubLocation > HOME_DISTANCE_KM * 1000 →
      revalidateEvent dist now userId event true location =
        .ok { event with status := .cancelledGeoMismatch,
                         revalidationRespondedAt := some now,
                         revalidationConfirmed := some false,
                         revalidationLocation := some location }) ∧
    (dist location event.hubLocation ≤ HOME_DISTANCE_KM * 1000 →
      revalidateEvent dist now userId event true location =
        .ok { event with status := .active,
                         revalidationRespondedAt := some now,
                         revalidationConfirmed := some true,
                         revalidationLocation := some location }) := by
  refine ⟨?_, ?_, ?_⟩
  · simp [revalidateEvent, hstatus, hcreator]
  · intro hd
    simp [revalidateEvent, hstatus, hcreator, hd]
  · intro hd
    simp [revalidateEvent, hstatus, hcreator, not_lt.mpr hd]

/-- Witness for C2: with the haversine result pinned to 10000.01 m the
confirmed revalidation cancels with geo-mismatch, with 9999.99 m and with
exactly 10000 m it goes active, and a declined revalidation cancels with
no-revalidation. -/
theorem C2_revalidation_outcomes_witness :
    (revalidateEvent (fun _ _ => (1000001 : ℚ) / 100) 7 "alice"
      { baseEvent with status := .revalidationPending } true
      { lat := 1, lng := 2 } =
      .ok { baseEvent with status := .cancelledGeoMismatch,
                           revalidationRespondedAt := some 7,
                           revalidationConfirmed := some false,
                           revalidationLocation := some { lat := 1, lng := 2 } }) ∧
    (revalidateEvent (fun _ _ => (999999 : ℚ) / 100) 7 "alice"
      { baseEvent with status := .revalidationPending } true
      { lat := 1, lng := 2 } =
      .ok { baseEvent with status := .active,
                           revalidationRespondedAt := some 7,
                           revalidationConfirmed := some true,
                           revalidationLocation := some { lat := 1, lng := 2 } }) ∧
    (revalidateEvent (fun _ _ => (10000 : ℚ)) 7 "alice"
      { baseEvent with status := .revalidationPending } true
      { lat := 1, lng := 2 } =
      .ok { baseEvent with status := .active,
                           revalidationRespondedAt := some 7,
                           revalidationConfirmed := some true,
                           revalidationLocation := some { lat := 1, lng := 2 } }) ∧
    (revalidateEvent (fun _ _ => (0 : ℚ)) 7 "alice"
      { baseEvent with status := .revalidationPending } false
      { lat := 1, lng := 2 } =
      .ok { baseEvent with status := .cancelledNoRevalidation,
                           revalidationRespondedAt := some 7,
                           revalidationConfirmed := some false }) := by
  refine ⟨?_, ?_, ?_, ?_⟩
  · exact (C2_revalidation_outcomes (fun _ _ => (1000001 : ℚ) / 100) 7 "alice"
      { baseEvent with status := .revalidationPending } { lat := 1, lng := 2 }
      rfl rfl).2.1 (by norm_num [HOME_DISTANCE_KM])
  · exact (C2_revalidation_outcomes (fun _ _ => (999999 : ℚ) / 100) 7 "alice"
      { baseEvent with status := .revalidationPending } { lat := 1, lng := 2 }
      rfl rfl).2.2 (by norm_num [HOME_DISTANCE_KM])
  · exact (C2_revalidation_outcomes (fun _ _ => (10000 : ℚ)) 7 "alice"
      { baseEvent with status := .revalidationPending } { lat := 1, lng := 2 }
      rfl rfl).2.2 (by norm_num [HOME_DISTANCE_KM])
  · exact (C2_revalidation_outcomes (fun _ _ => (0 : ℚ)) 7 "alice"
      { baseEvent with status := .revalidationPending } { lat := 1, lng := 2 }
      rfl rfl).1

/-- C3: for an event in active or on_site_partial and a caller whose role is
not yet checked in, a check-in farther than 100 m is rejected and leaves the
event row unchanged, while a check-in within 100 m (inclusive) records the
role as checked in with timestamp and location and moves the status to
on_site_confirmed when the other role is already checked in, otherwise to
on_site_partial. -/
theorem C3_check_in_geofence (dist : Location → Location → ℚ) (now : Int)
    (userId : String) (event : Event) (location : Location)
    (hstatus : event.status = .active ∨ event.status = .onSitePartly) :
    (event.creatorId = userId →
      event.creatorCheckInStatus ≠ .checkedIn →
      (dist location event.hubLocation > CHECK_IN_DISTANCE_METERS →
        checkInEvent dist now userId event location = .error .badRequest ∧
        checkInStep dist now userId event location = event) ∧
      (dist location event.hubLocation ≤ CHECK_IN_DISTANCE_METERS →
        checkInEvent dist now userId event location =
          .ok { event with
                  creatorCheckInStatus := .checkedIn,
                  creatorCheckInAt := some now,
                  creatorCheckInLocation := some location,
                  status :=
                    if event.participantCheckInStatus = .checkedIn then
                      .onSiteConfirmed
                    else .onSitePartly })) ∧
    (event.creatorId ≠ userId → event.participantId = some userId →
      event.participantCheckInStatus ≠ .checkedIn →
      (dist location event.hubLocation > CHECK_IN_DISTANCE_METERS →
        checkInEvent dist now userId event location = .error .badRequest ∧
        checkInStep dist now userId event location = event) ∧
      (dist location event.hubLocation ≤ CHECK_IN_DISTANCE_METERS →
        checkInEvent dist now userId event location =
          .ok { event with
                  participantCheckInStatus := .checkedIn,
                  participantCheckInAt := some now,
                  participantCheckInLocation := some location,
                  status :=
                    if event.creatorCheckInStatus = .checkedIn then
                      .onSiteConfirmed
                    else .onSitePartly })) := by
  have hstat2 : ¬ (event.status ≠ .active ∧ event.status ≠ .onSitePartly) := by
    rcases hstatus with h | h <;> simp [h]
  constructor
  · intro hc hnot
    constructor
    · intro hd
      constructor
      · simp [checkInEvent, hc, hstat2, hnot, hd]
      · simp [checkInStep, checkInEvent, hc, hstat2, hnot, hd]
    · intro hd
      simp [checkInEvent, hc, hstat2, hnot, not_lt.mpr hd]
  · intro hc hp hnot
    constructor
    · intro hd
      constructor
      · simp [checkInEvent, hc, hp, hstat2, hnot, hd]
      · simp [checkInStep, checkInEvent, hc, hp, hstat2, hnot, hd]
    · intro hd
      simp [checkInEvent, hc, hp, hstat2, hnot, not_lt.mpr hd]

/-- Witness for C3: on an active event, a creator check-in at 100.01 m is
rejected and changes nothing, while one at exactly 100 m records the
check-in and moves the event to on_site_partial. -/
theorem C3_check_in_geofence_witness :
    (checkInEvent (fun _ _ => (10001 : ℚ) / 100) 9 "alice"
      { baseEvent with status := .active } { lat := 3, lng := 4 } =
      .error .badRequest) ∧
    (checkInStep (fun _ _ => (10001 : ℚ) / 100) 9 "alice"
      { baseEvent with status := .active } { lat := 3, lng := 4 } =
      { baseEvent with status := .active }) ∧
    (checkInEvent (fun _ _ => (100 : ℚ)) 9 "alice"
      { baseEvent with status := .active } { lat := 3, lng := 4 } =
      .ok { baseEvent with
              status := .onSitePartly,
              creatorCheckInStatus := .checkedIn,
              creatorCheckInAt := some 9,
              creatorCheckInLocation := some { lat := 3, lng := 4 } }) := by
  have h := C3_check_in_geofence (fun _ _ => (10001 : ℚ) / 100) 9 "alice"
    { baseEvent with status := .active } { lat := 3, lng := 4 } (Or.inl rfl)
  have h2 := C3_check_in_geofence (fun _ _ => (100 : ℚ)) 9 "alice"
    { baseEvent with status := .active } { lat := 3, lng := 4 } (Or.inl rfl)
  refine ⟨?_, ?_, ?_⟩
  · exact ((h.1 rfl (by decide)).1
      (by norm_num [CHECK_IN_DISTANCE_METERS])).1
  · exact ((h.1 rfl (by decide)).1
      (by norm_num [CHECK_IN_DISTANCE_METERS])).2
  · exact (h2.1 rfl (by decide)).2 (by norm_num [CHECK_IN_DISTANCE_METERS])

/-- C6: a successful createEvent stores expiresAt exactly one hour before
the scheduled start and status scheduled; one expire-sweep run moves exactly
the scheduled events with expiresAt ≤ now to expired (all other rows pass
through unchanged); and for the freshly created event a sweep 61 minutes
before the start leaves it scheduled while a sweep 59 minutes before the
start expires it. -/
theorem C6_expiry_window (now : Int) (userId : String) (dto : CreateEventDto)
    (db : Db) (stats : UserStats) (db2 : Db) (stats2 : UserStats)
    (event : Event)
    (h : createEvent now userId dto db stats = .ok (db2, stats2, event)) :
    event.expiresAt = dto.scheduledStartTime - hourMs ∧
    event.status = .scheduled ∧
    (∀ (sweepNow : Int) (evs : List Event) (e : Event), e ∈ evs →
      (e.status = .scheduled ∧ e.expiresAt ≤ sweepNow →
        { e with status := .expired } ∈ expireEvents sweepNow evs) ∧
      (¬ (e.status = .scheduled ∧ e.expiresAt ≤ sweepNow) →
        e ∈ expireEvents sweepNow evs)) ∧
    expireEvents (dto.scheduledStartTime - 61 * minuteMs) [event] =
      [event] ∧
    expireEvents (dto.scheduledStartTime - 59 * minuteMs) [event] =
      [{ event with status := .expired }] := by
  have hev : event.expiresAt = dto.scheduledStartTime - hourMs ∧
      event.status = .scheduled := by
    unfold createEvent at h
    split at h
    · exact absurd h (by simp)
    · split at h
      · exact absurd h (by simp)
      · split at h
        · exact absurd h (by simp)
        · split at h
          · exact absurd h (by simp)
          · simp only [Except.ok.injEq, Prod.mk.injEq] at h
            obtain ⟨-, -, hevent⟩ := h
            subst hevent
            exact ⟨rfl, rfl⟩
  obtain ⟨hexp, hsch⟩ := hev
  refine ⟨hexp, hsch, ?_, ?_, ?_⟩
  · intro sweepNow evs e he
    constructor
    · intro hcond
      have : (fun e : Event =>
          if e.status = .scheduled ∧ e.expiresAt ≤ sweepNow then
            { e with status := .expired }
          else e) e = { e with status := .expired } := if_pos hcond
      exact this ▸ List.mem_map_of_mem _ he
    · intro hcond
      have : (fun e : Event =>
          if e.status = .scheduled ∧ e.expiresAt ≤ sweepNow then
            { e with status := .expired }
          else e) e = e := if_neg hcond
      exact this ▸ List.mem_map_of_mem _ he
  · simp only [expireEvents, List.map_cons, List.map_nil]
    rw [if_neg]
    intro hcond
    rw [hexp] at hcond
    have := hcond.2
    simp [minuteMs, hourMs] at this
    omega
  · simp only [expireEvents, List.map_cons, List.map_nil]
    rw [if_pos]
    refine ⟨hsch, ?_⟩
    rw [hexp]
    simp [minuteMs, hourMs]
    omega

/-- Witness for C6: the event created at time 0 and scheduled three hours
out has expiresAt two hours out, survives the sweep at start minus 61
minutes and expires at the sweep at start minus 59 minutes. -/
theorem C6_expiry_window_witness :
    threeHourEvent.expiresAt = threeHourDto.scheduledStartTime - hourMs ∧
    threeHourEvent.status = .scheduled ∧
    expireEvents (threeHourDto.scheduledStartTime - 61 * minuteMs)
      [threeHourEvent] = [threeHourEvent] ∧
    expireEvents (threeHourDto.scheduledStartTime - 59 * minuteMs)
      [threeHourEvent] = [{ threeHourEvent with status := .expired }] := by
  have h := C6_expiry_window 0 "alice" threeHourDto initDb defaultStats
    { events := [threeHourEvent], requests := [], nextEventId := 1,
      nextRequestId := 0 }
    (addPoints 5 { defaultStats with eventsCreated := 1 })
    threeHourEvent rfl
  exact ⟨h.1, h.2.1, h.2.2.2.1, h.2.2.2.2⟩

/-- A successful requestToJoinEvent call appends one fresh pending request,
changes nothing else, and can only fire on a scheduled event. -/
theorem requestToJoin_ok_spec (now : Int) (userId : String) (eventId : Nat)
    (db db2 : Db) (req : EventRequest)
    (h : requestToJoinEvent now userId eventId db = .ok (db2, req)) :
    db2 = { db with requests := db.requests ++ [req],
                    nextRequestId := db.nextRequestId + 1 } ∧
    req = { id := db.nextRequestId, eventId := eventId,
            requesterId := userId, status := .pending, createdAt := now,
            respondedAt := none } ∧
    db.requests.find?
      (fun r => r.eventId == eventId && r.requesterId == userId) = none ∧
    ∃ e, findEvent db eventId = some e ∧ e.status = .scheduled ∧
      e.creatorId ≠ userId ∧ ¬ (e.scheduledStartTime < now) := by
  unfold requestToJoinEvent at h
  cases hfe : findEvent db eventId with
  | none =>
    simp only [hfe] at h
    exact absurd h (by simp)
  | some e =>
    simp only [hfe] at h
    by_cases h1 : e.status = .scheduled
    · rw [if_neg (not_not.mpr h1)] at h
      by_cases h2 : e.creatorId = userId
      · rw [if_pos h2] at h
        exact absurd h (by simp)
      · rw [if_neg h2] at h
        by_cases h3 : e.scheduledStartTime < now
        · rw [if_pos h3] at h
          exact absurd h (by simp)
        · rw [if_neg h3] at h
          cases hdup : db.requests.find?
              (fun r => r.eventId == eventId && r.requesterId == userId) with
          | some q =>
            simp only [hdup] at h
            exact absurd h (by simp)
          | none =>
            simp only [hdup, Except.ok.injEq, Prod.mk.injEq] at h
            obtain ⟨hdb, hreq⟩ := h
            subst hdb
            subst hreq
            exact ⟨rfl, rfl, rfl, e, rfl, h1, h2, h3⟩
    · rw [if_pos h1] at h
      exact absurd h (by simp)

/-- A successful accepting respondToEventRequest call found a pending
request whose event belongs to the caller, marks it accepted, matches the
event to the requester and declines every other pending request of that
event, all in the one returned state. -/
theorem respond_accept_spec (now : Int) (userId : String) (requestId : Nat)
    (db db2 : Db)
    (h : respondToEventRequest now userId requestId true db = .ok db2) :
    ∃ request event, findRequest db requestId = some request ∧
      findEvent db request.eventId = some event ∧
      event.creatorId = userId ∧ request.status = .pending ∧
      db2 = { db with
        events := db.events.map
          (matchEventRewrite now request.eventId request.requesterId),
        requests := db.requests.map
          (acceptRequestRewrite now requestId request.eventId) } := by
  unfold respondToEventRequest at h
  cases hfr : findRequest db requestId with
  | none =>
    simp only [hfr] at h
    exact absurd h (by simp)
  | some request =>
    simp only [hfr] at h
    cases hfe : findEvent db request.eventId with
    | none =>
      simp only [hfe] at h
      exact absurd h (by simp)
    | some event =>
      simp only [hfe] at h
      by_cases hcr : event.creatorId = userId
      case neg =>
        rw [if_pos hcr] at h
        exact absurd h (by simp)
      rw [if_neg (not_not.mpr hcr)] at h
      by_cases hp : request.status = .pending
      case neg =>
        rw [if_pos hp] at h
        exact absurd h (by simp)
      rw [if_neg (not_not.mpr hp)] at h
      simp only [if_true, updateEvent, Except.ok.injEq] at h
      refine ⟨request, event, rfl, hfe, hcr, hp, ?_⟩
      have hfuse : (db.requests.map (fun r : EventRequest =>
          if r.id = requestId then
            { r with status := RequestStatus.accepted,
                     respondedAt := some now }
          else r)).map (fun r : EventRequest =>
          if r.eventId = request.eventId ∧ r.status = .pending ∧
              r.id ≠ requestId then
            { r with status := RequestStatus.declined,
                     respondedAt := some now }
          else r) =
          db.requests.map
            (acceptRequestRewrite now requestId request.eventId) := by
        rw [List.map_map]
        refine List.map_congr_left (fun r _ => ?_)
        unfold acceptRequestRewrite
        by_cases hid : r.id = requestId
        · simp [Function.comp, hid]
        · simp [Function.comp, hid]
      rw [← h, hfuse]
      rfl

/-- A successful declining respondToEventRequest call found a pending
request of the caller and only marks that request declined. -/
theorem respond_decline_spec (now : Int) (userId : String) (requestId : Nat)
    (db db2 : Db)
    (h : respondToEventRequest now userId requestId false db = .ok db2) :
    ∃ request, findRequest db requestId = some request ∧
      request.status = .pending ∧
      db2 = { db with requests := db.requests.map (fun r =>
        if r.id = requestId then
          { r with status := .declined, respondedAt := some now }
        else r) } := by
  unfold respondToEventRequest at h
  cases hfr : findRequest db requestId with
  | none =>
    simp only [hfr] at h
    exact absurd h (by simp)
  | some request =>
    simp only [hfr] at h
    cases hfe : findEvent db request.eventId with
    | none =>
      simp only [hfe] at h
      exact absurd h (by simp)
    | some event =>
      simp only [hfe] at h
      by_cases hcr : event.creatorId = userId
      case neg =>
        rw [if_pos hcr] at h
        exact absurd h (by simp)
      rw [if_neg (not_not.mpr hcr)] at h
      by_cases hp : request.status = .pending
      case neg =>
        rw [if_pos hp] at h
        exact absurd h (by simp)
      rw [if_neg (not_not.mpr hp)] at h
      simp only [Bool.false_eq_true, if_false, Except.ok.injEq] at h
      exact ⟨request, rfl, hp, h.symm⟩

/-- In a request list with pairwise distinct ids, at most one entry carries
any given id. -/
theorem countP_id_le_one (l : List EventRequest) (rid : Nat)
    (h : (l.map EventRequest.id).Nodup) :
    l.countP (fun r => decide (r.id = rid)) ≤ 1 := by
  induction l with
  | nil => simp
  | cons a l ih =>
    simp only [List.map_cons, List.nodup_cons] at h
    by_cases ha : a.id = rid
    · rw [List.countP_cons_of_pos _ _ (by simpa using ha)]
      have hzero : l.countP (fun r => decide (r.id = rid)) = 0 := by
        refine List.countP_eq_zero.mpr (fun r hr => ?_)
        simp only [decide_eq_true_eq]
        intro hrid
        refine h.1 ?_
        have hmem : r.id ∈ List.map EventRequest.id l :=
          List.mem_map_of_mem EventRequest.id hr
        rwa [hrid, ← ha] at hmem
      omega
    · rw [List.countP_cons_of_neg _ _ (by simpa using ha)]
      exact ih h.2

/-- Inserting a fresh scheduled event preserves the workflow invariant. -/
theorem dbInv_create (db : Db) (e : Event) (hid : e.id = db.nextEventId)
    (hs : e.status = .scheduled) (hinv : DbInv db) :
    DbInv { db with events := db.events ++ [e],
                    nextEventId := db.nextEventId + 1 } := by
  obtain ⟨h1, h2, h3, h4, h5, h6, h7⟩ := hinv
  refine ⟨h1, h2, ?_, ?_, h5, h6, ?_⟩
  · intro ev hev
    rcases List.mem_append.mp hev with hev | hev
    · have := h3 ev hev
      simp only []
      omega
    · simp only [List.mem_singleton] at hev
      subst hev
      simp only []
      omega
  · intro r hr
    have := h4 r hr
    simp only []
    omega
  · intro eid hsch
    obtain ⟨ev, hev, hevid, hevs⟩ := hsch
    rcases List.mem_append.mp hev with hev | hev
    · exact h7 eid ⟨ev, hev, hevid, hevs⟩
    · simp only [List.mem_singleton] at hev
      subst hev
      refine List.countP_eq_zero.mpr (fun r hr => ?_)
      simp only [decide_eq_true_eq, not_and]
      intro hre
      have := h4 r hr
      omega

/-- Appending a fresh pending request through requestToJoinEvent preserves
the workflow invariant. -/
theorem dbInv_requestJoin (now : Int) (userId : String) (eventId : Nat)
    (db db2 : Db) (req : EventRequest)
    (h : requestToJoinEvent now userId eventId db = .ok (db2, req))
    (hinv : DbInv db) : DbInv db2 := by
  obtain ⟨hdb, hreq, -, e, hfe, hes, -, -⟩ :=
    requestToJoin_ok_spec _ _ _ _ _ _ h
  subst hdb
  subst hreq
  obtain ⟨h1, h2, h3, h4, h5, h6, h7⟩ := hinv
  have hemem : e ∈ db.events := List.mem_of_find?_eq_some hfe
  have heid : e.id = eventId := by simpa using List.find?_some hfe
  have hevid : eventId < db.nextEventId := heid ▸ h3 e hemem
  have hcnt : ∀ eid,
      acceptedCount { db with
        requests := db.requests ++
          [{ id := db.nextRequestId, eventId := eventId,
             requesterId := userId, status := .pending, createdAt := now,
             respondedAt := none }],
        nextRequestId := db.nextRequestId + 1 } eid =
      acceptedCount db eid := by
    intro eid
    unfold acceptedCount
    simp [List.countP_append]
  refine ⟨?_, ?_, h3, ?_, ?_, ?_, ?_⟩
  · rw [List.map_append, List.nodup_append]
    refine ⟨h1, List.nodup_singleton _, ?_⟩
    intro a ha hb
    simp only [List.map_cons, List.map_nil, List.mem_singleton] at hb
    subst hb
    obtain ⟨r, hr, hrid⟩ := List.mem_map.mp ha
    have := h2 r hr
    omega
  · intro r hr
    rcases List.mem_append.mp hr with hr | hr
    · have := h2 r hr
      simp only []
      omega
    · simp only [List.mem_singleton] at hr
      subst hr
      simp only []
      omega
  · intro r hr
    rcases List.mem_append.mp hr with hr | hr
    · exact h4 r hr
    · simp only [List.mem_singleton] at hr
      subst hr
      exact hevid
  · intro eid
    rw [hcnt]
    exact h5 eid
  · intro eid hp
    rw [hcnt]
    obtain ⟨x, hx, hxe, hxs⟩ := hp
    rcases List.mem_append.mp hx with hx | hx
    · exact h6 eid ⟨x, hx, hxe, hxs⟩
    · simp only [List.mem_singleton] at hx
      subst hx
      exact hxe ▸ h7 eventId ⟨e, hemem, heid, hes⟩
  · intro eid hsch
    rw [hcnt]
    exact h7 eid hsch

/-- A request-table rewrite that at most turns pending rows into declined
ones, keeping ids and event ids, preserves the workflow invariant.  This
covers the stale-request cron and the declining respondToEventRequest
call. -/
theorem dbInv_requests_decline (db : Db) (g : EventRequest → EventRequest)
    (hg : ∀ r ∈ db.requests, g r = r ∨
      (r.status = .pending ∧ (g r).status = .declined ∧
        (g r).id = r.id ∧ (g r).eventId = r.eventId))
    (hinv : DbInv db) : DbInv { db with requests := db.requests.map g } := by
  obtain ⟨h1, h2, h3, h4, h5, h6, h7⟩ := hinv
  have hid : ∀ r ∈ db.requests, (g r).id = r.id := by
    intro r hr
    rcases hg r hr with h | h
    · rw [h]
    · exact h.2.2.1
  have hev : ∀ r ∈ db.requests, (g r).eventId = r.eventId := by
    intro r hr
    rcases hg r hr with h | h
    · rw [h]
    · exact h.2.2.2
  have hacc : ∀ r ∈ db.requests,
      ((g r).status = .accepted ↔ r.status = .accepted) := by
    intro r hr
    rcases hg r hr with h | h
    · rw [h]
    · constructor
      · intro hc
        rw [h.2.1] at hc
        exact absurd hc (by simp)
      · intro hc
        rw [h.1] at hc
        exact absurd hc (by simp)
  have hcnt : ∀ eid,
      acceptedCount { db with requests := db.requests.map g } eid =
      acceptedCount db eid := by
    intro eid
    unfold acceptedCount
    rw [List.countP_map]
    refine List.countP_congr (fun r hr => ?_)
    simp only [Function.comp, decide_eq_true_eq]
    rw [hev r hr]
    exact and_congr_right (fun _ => hacc r hr)
  refine ⟨?_, ?_, h3, ?_, ?_, ?_, ?_⟩
  · rw [List.map_map]
    have hmapeq : List.map (EventRequest.id ∘ g) db.requests =
        List.map EventRequest.id db.requests :=
      List.map_congr_left (fun r hr => hid r hr)
    rw [hmapeq]
    exact h1
  · intro r hr
    obtain ⟨r0, hr0, hr0eq⟩ := List.mem_map.mp hr
    subst hr0eq
    rw [hid r0 hr0]
    exact h2 r0 hr0
  · intro r hr
    obtain ⟨r0, hr0, hr0eq⟩ := List.mem_map.mp hr
    subst hr0eq
    rw [hev r0 hr0]
    exact h4 r0 hr0
  · intro eid
    rw [hcnt]
    exact h5 eid
  · intro eid hp
    rw [hcnt]
    obtain ⟨x, hx, hxe, hxs⟩ := hp
    obtain ⟨r0, hr0, hr0eq⟩ := List.mem_map.mp hx
    subst hr0eq
    rcases hg r0 hr0 with hcase | hcase
    · rw [hcase] at hxe hxs
      exact h6 eid ⟨r0, hr0, hxe, hxs⟩
    · rw [hcase.2.1] at hxs
      exact absurd hxs (by simp)
  · intro eid hsch
    rw [hcnt]
    exact h7 eid hsch

/-- Any per-row event rewrite that keeps ids and moves no row into the
scheduled status preserves the workflow invariant.  This covers every event
status transition of the service and the sweeps. -/
theorem dbInv_eventsMap (db : Db) (f : Event → Event)
    (hfid : ∀ e, (f e).id = e.id)
    (hfs : ∀ e, (f e).status = .scheduled → f e = e)
    (hinv : DbInv db) : DbInv { db with events := db.events.map f } := by
  obtain ⟨h1, h2, h3, h4, h5, h6, h7⟩ := hinv
  refine ⟨h1, h2, ?_, h4, h5, h6, ?_⟩
  · intro e he
    obtain ⟨e0, he0, he0eq⟩ := List.mem_map.mp he
    subst he0eq
    rw [hfid e0]
    exact h3 e0 he0
  · intro eid hsch
    obtain ⟨e, he, heid, hes⟩ := hsch
    obtain ⟨e0, he0, he0eq⟩ := List.mem_map.mp he
    subst he0eq
    have heq := hfs e0 hes
    rw [heq] at heid hes
    exact h7 eid ⟨e0, he0, heid, hes⟩

/-- Deleting event rows preserves the workflow invariant. -/
theorem dbInv_purge (db : Db) (keep : Event → Bool) (hinv : DbInv db) :
    DbInv { db with events := db.events.filter keep } := by
  obtain ⟨h1, h2, h3, h4, h5, h6, h7⟩ := hinv
  refine ⟨h1, h2, ?_, h4, h5, h6, ?_⟩
  · intro e he
    exact h3 e (List.mem_of_mem_filter he)
  · intro eid hsch
    obtain ⟨e, he, heid, hes⟩ := hsch
    exact h7 eid ⟨e, List.mem_of_mem_filter he, heid, hes⟩

/-- The accept rewrite keeps request ids. -/
theorem acceptRequestRewrite_id (now : Int) (requestId evId : Nat)
    (r : EventRequest) :
    (acceptRequestRewrite now requestId evId r).id = r.id := by
  unfold acceptRequestRewrite
  by_cases hA : r.id = requestId
  · simp [hA]
  · by_cases hB : r.eventId = evId ∧ r.status = .pending ∧ r.id ≠ requestId
    · simp [hA, hB]
    · have hC : ¬ (r.eventId = evId ∧ r.status = .pending) :=
        fun hC => hB ⟨hC.1, hC.2, hA⟩
      simp [hA, hC]

/-- The accept rewrite keeps event ids. -/
theorem acceptRequestRewrite_eventId (now : Int) (requestId evId : Nat)
    (r : EventRequest) :
    (acceptRequestRewrite now requestId evId r).eventId = r.eventId := by
  unfold acceptRequestRewrite
  by_cases hA : r.id = requestId
  · simp [hA]
  · by_cases hB : r.eventId = evId ∧ r.status = .pending ∧ r.id ≠ requestId
    · simp [hA, hB]
    · have hC : ¬ (r.eventId = evId ∧ r.status = .pending) :=
        fun hC => hB ⟨hC.1, hC.2, hA⟩
      simp [hA, hC]

/-- After the accept rewrite a request is accepted exactly when it is the
accepted one or was accepted before. -/
theorem acceptRequestRewrite_accepted (now : Int) (requestId evId : Nat)
    (r : EventRequest) :
    ((acceptRequestRewrite now requestId evId r).status = .accepted ↔
      (r.id = requestId ∨ r.status = .accepted)) := by
  unfold acceptRequestRewrite
  by_cases hA : r.id = requestId
  · simp [hA]
  · by_cases hB : r.eventId = evId ∧ r.status = .pending ∧ r.id ≠ requestId
    · simp [hA, hB, hB.2.1]
    · have hC : ¬ (r.eventId = evId ∧ r.status = .pending) :=
        fun hC => hB ⟨hC.1, hC.2, hA⟩
      simp [hA, hC]

/-- A request still pending after the accept rewrite was pending before and
belongs to a different event. -/
theorem acceptRequestRewrite_pending (now : Int) (requestId evId : Nat)
    (r : EventRequest)
    (h : (acceptRequestRewrite now requestId evId r).status = .pending) :
    r.status = .pending ∧ r.id ≠ requestId ∧ r.eventId ≠ evId := by
  unfold acceptRequestRewrite at h
  by_cases hA : r.id = requestId
  · rw [if_pos hA] at h
    exact absurd h (by simp)
  · by_cases hB : r.eventId = evId ∧ r.status = .pending ∧ r.id ≠ requestId
    · rw [if_neg hA, if_pos hB] at h
      exact absurd h (by simp)
    · rw [if_neg hA, if_neg hB] at h
      refine ⟨h, hA, fun hev => hB ⟨hev, h, hA⟩⟩

/-- The match rewrite keeps event ids. -/
theorem matchEventRewrite_id (now : Int) (evId : Nat) (requesterId : String)
    (e : Event) :
    (matchEventRewrite now evId requesterId e).id = e.id := by
  unfold matchEventRewrite
  by_cases hA : e.id = evId
  · simp [hA]
  · simp [hA]

/-- An event still scheduled after the match rewrite was untouched and is
not the matched one. -/
theorem matchEventRewrite_scheduled (now : Int) (evId : Nat)
    (requesterId : String) (e : Event)
    (h : (matchEventRewrite now evId requesterId e).status = .scheduled) :
    matchEventRewrite now evId requesterId e = e ∧ e.id ≠ evId := by
  unfold matchEventRewrite at h ⊢
  by_cases hA : e.id = evId
  · rw [if_pos hA] at h
    exact absurd h (by simp)
  · rw [if_neg hA]
    exact ⟨rfl, hA⟩

/-- An accepting respondToEventRequest call preserves the workflow
invariant. -/
theorem dbInv_respond_accept (now : Int) (userId : String) (requestId : Nat)
    (db db2 : Db)
    (h : respondToEventRequest now userId requestId true db = .ok db2)
    (hinv : DbInv db) : DbInv db2 := by
  obtain ⟨request, event, hfr, hfe, hcr, hp, hdb⟩ :=
    respond_accept_spec now userId requestId db db2 h
  subst hdb
  obtain ⟨h1, h2, h3, h4, h5, h6, h7⟩ := hinv
  have hreqmem : request ∈ db.requests := List.mem_of_find?_eq_some hfr
  have hreqid : request.id = requestId := by simpa using List.find?_some hfr
  have hz : ∀ r ∈ db.requests,
      ¬ (r.eventId = request.eventId ∧ r.status = .accepted) := by
    have h0 := h6 request.eventId ⟨request, hreqmem, rfl, hp⟩
    intro r hr hand
    have := List.countP_eq_zero.mp h0 r hr
    simp only [decide_eq_true_eq] at this
    exact this hand
  have hinj : ∀ r ∈ db.requests, r.id = requestId → r = request := by
    intro r hr hrid
    exact List.inj_on_of_nodup_map h1 hr hreqmem (by rw [hrid, hreqid])
  have hcntP : ∀ eid,
      acceptedCount { db with
        events := db.events.map
          (matchEventRewrite now request.eventId request.requesterId),
        requests := db.requests.map
          (acceptRequestRewrite now requestId request.eventId) } eid =
      db.requests.countP (fun r =>
        decide (r.eventId = eid ∧ (r.id = requestId ∨
          r.status = .accepted))) := by
    intro eid
    unfold acceptedCount
    rw [List.countP_map]
    refine List.countP_congr (fun r _ => ?_)
    simp only [Function.comp, decide_eq_true_eq]
    rw [acceptRequestRewrite_eventId]
    exact and_congr_right (fun _ => acceptRequestRewrite_accepted _ _ _ _)
  have hmain : acceptedCount { db with
      events := db.events.map
        (matchEventRewrite now request.eventId request.requesterId),
      requests := db.requests.map
        (acceptRequestRewrite now requestId request.eventId) }
      request.eventId ≤ 1 := by
    rw [hcntP]
    calc db.requests.countP (fun r =>
          decide (r.eventId = request.eventId ∧ (r.id = requestId ∨
            r.status = .accepted)))
        = db.requests.countP (fun r =>
            decide (r.eventId = request.eventId ∧ r.id = requestId)) := by
          refine List.countP_congr (fun r hr => ?_)
          simp only [decide_eq_true_eq]
          constructor
          · rintro ⟨hre, hor | hacc⟩
            · exact ⟨hre, hor⟩
            · exact absurd ⟨hre, hacc⟩ (hz r hr)
          · rintro ⟨hre, hid⟩
            exact ⟨hre, Or.inl hid⟩
      _ ≤ db.requests.countP (fun r => decide (r.id = requestId)) := by
          refine List.countP_mono_left (fun r _ => ?_)
          simp only [decide_eq_true_eq]
          exact fun hand => hand.2
      _ ≤ 1 := countP_id_le_one db.requests requestId h1
  have hother : ∀ eid, eid ≠ request.eventId →
      acceptedCount { db with
        events := db.events.map
          (matchEventRewrite now request.eventId request.requesterId),
        requests := db.requests.map
          (acceptRequestRewrite now requestId request.eventId) } eid =
      acceptedCount db eid := by
    intro eid hne
    rw [hcntP]
    unfold acceptedCount
    refine List.countP_congr (fun r hr => ?_)
    simp only [decide_eq_true_eq]
    constructor
    · rintro ⟨hre, hor | hacc⟩
      · have := hinj r hr hor
        subst this
        exact absurd hre.symm (by simpa using hne)
      · exact ⟨hre, hacc⟩
    · rintro ⟨hre, hacc⟩
      exact ⟨hre, Or.inr hacc⟩
  refine ⟨?_, ?_, ?_, ?_, ?_, ?_, ?_⟩
  · rw [List.map_map]
    have hmapeq : List.map
        (EventRequest.id ∘ acceptRequestRewrite now requestId request.eventId)
        db.requests = List.map EventRequest.id db.requests :=
      List.map_congr_left (fun r _ => acceptRequestRewrite_id _ _ _ r)
    rw [hmapeq]
    exact h1
  · intro r hr
    obtain ⟨r0, hr0, hr0eq⟩ := List.mem_map.mp hr
    subst hr0eq
    rw [acceptRequestRewrite_id]
    exact h2 r0 hr0
  · intro e he
    obtain ⟨e0, he0, he0eq⟩ := List.mem_map.mp he
    subst he0eq
    rw [matchEventRewrite_id]
    exact h3 e0 he0
  · intro r hr
    obtain ⟨r0, hr0, hr0eq⟩ := List.mem_map.mp hr
    subst hr0eq
    rw [acceptRequestRewrite_eventId]
    exact h4 r0 hr0
  · intro eid
    by_cases hcase : eid = request.eventId
    · subst hcase
      exact hmain
    · rw [hother eid hcase]
      exact h5 eid
  · intro eid hpend
    obtain ⟨x, hx, hxe, hxs⟩ := hpend
    obtain ⟨r0, hr0, hr0eq⟩ := List.mem_map.mp hx
    subst hr0eq
    obtain ⟨hr0p, -, hr0ne⟩ := acceptRequestRewrite_pending _ _ _ _ hxs
    rw [acceptRequestRewrite_eventId] at hxe
    have hne : eid ≠ request.eventId := fun hc => hr0ne (hxe ▸ hc ▸ rfl)
    rw [hother eid hne]
    exact h6 eid ⟨r0, hr0, hxe, hr0p⟩
  · intro eid hsch
    obtain ⟨e, he, heid, hes⟩ := hsch
    obtain ⟨e0, he0, he0eq⟩ := List.mem_map.mp he
    subst he0eq
    obtain ⟨heq, hne0⟩ := matchEventRewrite_scheduled _ _ _ _ hes
    rw [heq] at heid hes
    have hne : eid ≠ request.eventId := fun hc => hne0 (heid ▸ hc ▸ rfl)
    rw [hother eid hne]
    exact h7 eid ⟨e0, he0, heid, hes⟩

/-- The empty database satisfies the workflow invariant. -/
theorem dbInv_init : DbInv initDb := by
  constructor <;>
    simp [initDb, acceptedCount, hasPendingRequest, scheduledEventAt]

/-- Every database reachable through the workflow satisfies the
invariant. -/
theorem reachable_inv (db : Db) (h : Reachable db) : DbInv db := by
  induction h with
  | init => exact dbInv_init
  | step dba dbb hr hs ih =>
    cases hs with
    | create e dbx hid hsch => exact dbInv_create _ _ hid hsch ih
    | requestJoin now userId eventId dbx dby req hok =>
      exact dbInv_requestJoin _ _ _ _ _ _ hok ih
    | respond now userId requestId accept dbx dby hok =>
      cases accept with
      | true => exact dbInv_respond_accept _ _ _ _ _ hok ih
      | false =>
        obtain ⟨request, hfr, hp, hdb⟩ :=
          respond_decline_spec _ _ _ _ _ hok
        subst hdb
        refine dbInv_requests_decline _ _ ?_ ih
        intro r hr
        by_cases hid : r.id = requestId
        · right
          have hreqid : request.id = requestId := by
            simpa using List.find?_some hfr
          have hreq : r = request :=
            List.inj_on_of_nodup_map ih.reqIdsNodup hr
              (List.mem_of_find?_eq_some hfr) (by rw [hid, hreqid])
          refine ⟨by rw [hreq]; exact hp, ?_, ?_, ?_⟩ <;> simp [hid]
        · left
          simp [hid]
    | requestsDecline g dbx hg =>
      exact dbInv_requests_decline _ _ (fun r _ => hg r) ih
    | eventsMap f dbx hfid hfs => exact dbInv_eventsMap _ _ hfid hfs ih
    | purge keep dbx => exact dbInv_purge _ _ ih

/-- C5: in every database reachable through the workflow each event has at
most one accepted request; and one accepting respondToEventRequest call
declines — with respondedAt set — every other pending request of the event
in the same transition that sets the event matched with the requester as
participant. -/
theorem C5_single_accept_invariant (db : Db) (h : Reachable db) :
    (∀ eventId, acceptedCount db eventId ≤ 1) ∧
    (∀ (now : Int) (userId : String) (requestId : Nat) (db2 : Db)
        (request : EventRequest),
      findRequest db requestId = some request →
      respondToEventRequest now userId requestId true db = .ok db2 →
      (∀ e ∈ db2.events, e.id = request.eventId →
        e.status = .matched ∧ e.participantId = some request.requesterId) ∧
      (∀ r ∈ db.requests, r.eventId = request.eventId →
        r.status = .pending → r.id ≠ requestId →
        { r with status := .declined, respondedAt := some now } ∈
          db2.requests)) := by
  constructor
  · exact (reachable_inv db h).acceptedOnce
  · intro now userId requestId db2 request hfr hok
    obtain ⟨request2, event, hfr2, hfe, hcr, hp, hdb⟩ :=
      respond_accept_spec now userId requestId db db2 hok
    rw [hfr2] at hfr
    have hreq : request2 = request := Option.some.inj hfr
    subst hreq
    subst hdb
    constructor
    · intro e he heid
      obtain ⟨e0, he0, he0eq⟩ := List.mem_map.mp he
      subst he0eq
      rw [matchEventRewrite_id] at heid
      unfold matchEventRewrite
      rw [if_pos heid]
      exact ⟨rfl, rfl⟩
    · intro r hr hre hrp hrne
      have hrw : acceptRequestRewrite now requestId request2.eventId r =
          { r with status := .declined, respondedAt := some now } := by
        unfold acceptRequestRewrite
        rw [if_neg hrne, if_pos ⟨hre, hrp, hrne⟩]
      rw [← hrw]
      exact List.mem_map_of_mem _ hr

/-- Witness for C5 along a concrete trace: create an event, let bob request
to join, let alice accept; the pre-acceptance state is reachable, its event
has at most one accepted request, and the accepted call leaves the event
matched to bob. -/
theorem C5_single_accept_invariant_witness :
    acceptedCount traceDb2 0 ≤ 1 ∧
    matchedTraceEvent.status = .matched ∧
    matchedTraceEvent.participantId = some "bob" := by
  have hreach2 : Reachable traceDb2 :=
    Reachable.step traceDb1 traceDb2
      (Reachable.step initDb traceDb1 Reachable.init
        (Step.create threeHourEvent initDb rfl rfl))
      (Step.requestJoin 100 "bob" 0 traceDb1 traceDb2 traceReq rfl)
  have h := C5_single_accept_invariant traceDb2 hreach2
  refine ⟨h.1 0, ?_⟩
  exact (h.2 200 "alice" 0 traceDb3 traceReq rfl rfl).1
    matchedTraceEvent (by simp [traceDb3]) rfl

/-- C4, recorded as a divergence from the specified conflict behaviour: at
a database where request 7 is still pending while its event 1 is already
matched to carol, the accepting respondToEventRequest call does not fail —
it succeeds and overwrites the participant with bob, because the source
checks only the request status and never the event status. -/
theorem C4_accept_on_matched_event_overwrites :
    (findRequest racedDb 7).map EventRequest.status =
      some RequestStatus.pending ∧
    (findEvent racedDb 1).map (fun e => (e.status, e.participantId)) =
      some (EventStatus.matched, some "carol") ∧
    respondToEventRequest 5 "alice" 7 true racedDb = .ok racedAcceptedDb ∧
    (findEvent racedAcceptedDb 1).map
      (fun e => (e.status, e.participantId)) =
      some (EventStatus.matched, some "bob") :=
  ⟨rfl, rfl, rfl, rfl⟩

/-- C9 counterexample: for scheduled event 1 whose start is in the future
and requester bob, whose only prior request for it has status cancelled,
the claim promises success, but the source duplicate check matches requests
of any status and rejects the call. -/
theorem C9_cancelled_request_blocks_rejoin :
    (findEvent cancelledReqDb 1).map
      (fun e => (e.status, e.creatorId, e.scheduledStartTime)) =
      some (EventStatus.scheduled, "alice", 100 * hourMs) ∧
    cancelledReqDb.requests.map (fun r => (r.requesterId, r.status)) =
      [("bob", RequestStatus.cancelled)] ∧
    requestToJoinEvent 0 "bob" 1 cancelledReqDb = .error .badRequest :=
  ⟨rfl, rfl, rfl⟩

/-- C9 amended: requestToJoinEvent succeeds exactly when the event exists
with status scheduled, the requester is not the creator, the start has not
passed (the boundary instant still passes), and the requester has no prior
request of ANY status for the event — a cancelled prior request also
blocks; on success one pending request is appended and the events table is
unchanged. -/
theorem C9_request_join_guards (now : Int) (userId : String)
    (eventId : Nat) (db : Db) :
    ((∃ result, requestToJoinEvent now userId eventId db = .ok result) ↔
      (∃ e, findEvent db eventId = some e ∧ e.status = .scheduled ∧
        e.creatorId ≠ userId ∧ ¬ (e.scheduledStartTime < now) ∧
        ∀ r ∈ db.requests,
          ¬ (r.eventId = eventId ∧ r.requesterId = userId))) ∧
    (∀ db2 req, requestToJoinEvent now userId eventId db = .ok (db2, req) →
      db2.events = db.events ∧ db2.requests = db.requests ++ [req] ∧
      req.status = .pending) := by
  constructor
  · constructor
    · rintro ⟨result, h⟩
      obtain ⟨-, -, hfind, e, hfe, hes, hcr, hst⟩ :=
        requestToJoin_ok_spec now userId eventId db result.1 result.2 h
      refine ⟨e, hfe, hes, hcr, hst, fun r hr hand => ?_⟩
      have := List.find?_eq_none.mp hfind r hr
      simp only [Bool.and_eq_true, beq_iff_eq] at this
      exact this ⟨hand.1, hand.2⟩
    · rintro ⟨e, hfe, hes, hcr, hst, hnone⟩
      have hfind : db.requests.find?
          (fun r => r.eventId == eventId && r.requesterId == userId) =
          none := by
        refine List.find?_eq_none.mpr (fun r hr => ?_)
        simp only [Bool.and_eq_true, beq_iff_eq]
        exact fun hand => hnone r hr ⟨hand.1, hand.2⟩
      have hred : requestToJoinEvent now userId eventId db =
          .ok ({ db with
              requests := db.requests ++
                [{ id := db.nextRequestId, eventId := eventId,
                   requesterId := userId, status := .pending,
                   createdAt := now, respondedAt := none }],
              nextRequestId := db.nextRequestId + 1 },
            { id := db.nextRequestId, eventId := eventId,
              requesterId := userId, status := .pending,
              createdAt := now, respondedAt := none }) := by
        unfold requestToJoinEvent
        simp only [hfe, hfind]
        rw [if_neg (not_not.mpr hes), if_neg hcr, if_neg hst]
      exact ⟨_, hred⟩
  · intro db2 req h
    obtain ⟨hdb, hreq, -, -⟩ := requestToJoin_ok_spec _ _ _ _ _ _ h
    subst hdb
    subst hreq
    exact ⟨rfl, rfl, rfl⟩

/-- Witness for C9: along the concrete trace, the join call of bob appends
one pending request and leaves the events table unchanged. -/
theorem C9_request_join_guards_witness :
    traceDb2.events = traceDb1.events ∧
    traceDb2.requests = traceDb1.requests ++ [traceReq] ∧
    traceReq.status = .pending :=
  (C9_request_join_guards 100 "bob" 0 traceDb1).2 traceDb2 traceReq rfl

/-- C7, recorded as a divergence: the auto-complete sweep run 24 hours
after the feedback reminder completes the event, stamps completedAt and
increments both eventsCompleted counters, but leaves totalPoints of both
users unchanged — no completion points are awarded, although the source
comment and the specification promise them — and the sweep run at 23h59m
changes nothing. -/
theorem C7_auto_complete_awards_no_points :
    autoCompleteEvents dayMs [reminderEvent] reminderStats =
      ([completedReminderEvent], reminderStatsAfter) ∧
    reminderStatsAfter.map (fun p => p.2.totalPoints) = [50, 70] ∧
    reminderStats.map (fun p => p.2.totalPoints) = [50, 70] ∧
    autoCompleteEvents (dayMs - minuteMs) [reminderEvent] reminderStats =
      ([reminderEvent], reminderStats) :=
  ⟨rfl, rfl, rfl, rfl⟩

/-- C8 counterexample: the 20 point completion award moves a user from 90
to 110 points, crossing the 100 point milestone without ever equalling it,
and the milestone check sends nothing because it is an exact membership
test on the new value. -/
theorem C8_milestone_jump_sends_nothing :
    (addPoints 20 { totalPoints := 90 }).totalPoints = 110 ∧
    (90 : Int) < 100 ∧ (100 : Int) < 110 ∧
    (100 : Int) ∈ pointsMilestones ∧
    notifiesPointsMilestone
      (addPoints 20 { totalPoints := 90 }).totalPoints = false :=
  ⟨rfl, by norm_num, by norm_num, by decide, by decide⟩

/-- C8 amended: milestone notifications for totalPoints and eventsCompleted
are sent only from the both-feedback-submitted branch of submitFeedback;
there, after the +1 eventsCompleted and +20 totalPoints mutations, exactly
one email per counter is sent precisely when the new value of that counter
equals one of the thresholds, and a mutation that jumps over a threshold
without landing on it sends nothing; the other mutations of these counters
— the five point createEvent award, the ten point awards on acceptance and
the eventsCompleted increments of the auto-complete sweep — run no
milestone check and send nothing even on an exact landing. -/
theorem C8_milestones_completion_path_only (s : UserStats) :
    ((feedbackCompletionUpdate s).1.totalPoints = s.totalPoints + 20 ∧
     (feedbackCompletionUpdate s).1.eventsCompleted =
       s.eventsCompleted + 1) ∧
    ((feedbackCompletionUpdate s).2 =
      (if s.eventsCompleted + 1 ∈ eventsMilestones then
        [{ kind := .events, value := s.eventsCompleted + 1 }] else []) ++
      (if s.totalPoints + 20 ∈ pointsMilestones then
        [{ kind := .points, value := s.totalPoints + 20 }] else [])) ∧
    (80 < s.totalPoints → s.totalPoints < 100 →
      pointsMilestoneEmails (s.totalPoints + 20) = []) ∧
    createEventMilestoneEmails = [] ∧
    acceptRequestMilestoneEmails = [] ∧
    autoCompleteMilestoneEmails = [] := by
  refine ⟨⟨rfl, rfl⟩, ?_, ?_, rfl, rfl, rfl⟩
  · show eventsMilestoneEmails (s.eventsCompleted + 1) ++
        pointsMilestoneEmails (s.totalPoints + 20) = _
    unfold eventsMilestoneEmails pointsMilestoneEmails
    by_cases he : s.eventsCompleted + 1 ∈ eventsMilestones <;>
      by_cases hp : s.totalPoints + 20 ∈ pointsMilestones <;>
      simp [he, hp]
  · intro h1 h2
    have hmem : s.totalPoints + 20 ∉ pointsMilestones := by
      simp only [pointsMilestones, List.mem_cons, List.not_mem_nil,
        or_false]
      intro hmem
      rcases hmem with h | h | h | h | h | h <;> omega
    unfold pointsMilestoneEmails
    rw [if_neg (by simpa using hmem)]

/-- Witness for C8: with 90 points and no completed event, the completion
mutation lands eventsCompleted exactly on the first events threshold and
sends that one email, while totalPoints jumps from 90 over the 100 point
threshold to 110 and sends nothing. -/
theorem C8_milestones_completion_path_only_witness :
    (feedbackCompletionUpdate { totalPoints := 90 }).2 =
      [{ kind := .events, value := 1 }] ∧
    pointsMilestoneEmails ((90 : Int) + 20) = [] := by
  have h := C8_milestones_completion_path_only { totalPoints := 90 }
  constructor
  · rw [h.2.1]
    decide
  · exact h.2.2.1 (by norm_num) (by norm_num)

/-- Lookup after the key-preserving per-entry rewrite of
updateStatsEntry. -/
theorem find?_statsEntry (uid other : String) (f : UserStats → UserStats)
    (st : List (String × UserStats)) :
    (st.map (fun p => if p.1 = other then (p.1, f p.2) else p)).find?
        (fun p => p.1 == uid) =
      (st.find? (fun p => p.1 == uid)).map
        (fun p => if p.1 = other then (p.1, f p.2) else p) := by
  induction st with
  | nil => rfl
  | cons a l ih =>
    have hkey : ((if a.1 = other then (a.1, f a.2) else a) :
        String × UserStats).1 = a.1 := by
      by_cases hao : a.1 = other <;> simp [hao]
    by_cases ha : a.1 = uid
    · rw [List.map_cons,
        List.find?_cons_of_pos _ (by rw [hkey]; exact beq_iff_eq.mpr ha),
        List.find?_cons_of_pos _ (by simpa using ha)]
      simp
    · rw [List.map_cons,
        List.find?_cons_of_neg _ (by rw [hkey]; simp [ha]),
        List.find?_cons_of_neg _ (by simpa using ha), ih]

/-- Updating the row of a user rewrites exactly that row of the stats
view. -/
theorem getStats_update_same (uid : String) (f : UserStats → UserStats)
    (st : List (String × UserStats)) :
    getStats uid (updateStatsEntry uid f st) = f (getStats uid st) := by
  unfold updateStatsEntry
  cases hfind : st.find? (fun p => p.1 == uid) with
  | none =>
    unfold getStats
    rw [List.find?_append, hfind]
    simp
  | some q =>
    have hq : q.1 = uid := by simpa using List.find?_some hfind
    unfold getStats
    rw [find?_statsEntry, hfind]
    simp [hq]

/-- Updating the row of another user leaves the stats view of a user
unchanged. -/
theorem getStats_update_other (uid other : String) (hne : other ≠ uid)
    (f : UserStats → UserStats) (st : List (String × UserStats)) :
    getStats uid (updateStatsEntry other f st) = getStats uid st := by
  unfold updateStatsEntry
  cases hfind : st.find? (fun p => p.1 == other) with
  | none =>
    unfold getStats
    rw [List.find?_append]
    have hsing : ([(other, f defaultStats)].find?
        (fun p => p.1 == uid)) = none := by
      simp [hne]
    rw [hsing]
    cases st.find? (fun p => p.1 == uid) <;> rfl
  | some q =>
    unfold getStats
    rw [find?_statsEntry]
    cases hres : st.find? (fun p => p.1 == uid) with
    | none => rfl
    | some p =>
      have hp : p.1 = uid := by simpa using List.find?_some hres
      have hpo : ¬ p.1 = other := by
        rw [hp]
        exact fun hc => hne hc.symm
      simp [hpo]

/-- C10: a report that lifts reportsReceived of the reported user to five
or more suspends that user with suspendedUntil 24 hours ahead, and while
the suspension is in force (suspendedUntil strictly in the future) every
createEvent call by that user returns a forbidden error — the embedding
returns only the error, mirroring that the source throws before inserting
an event or touching any stats. -/
theorem C10_report_suspension (now : Int) (reporter reported : String)
    (stats : List (String × UserStats))
    (hne : reporter ≠ reported)
    (hcount : (getStats reported stats).reportsReceived + 1 ≥ 5) :
    reportUser now reporter reported stats =
      .ok (reportedSuspendedStats now reporter reported stats) ∧
    (getStats reported
      (reportedSuspendedStats now reporter reported stats)).isSuspended =
      true ∧
    (getStats reported
      (reportedSuspendedStats now reporter reported stats)).suspendedUntil =
      some (now + dayMs) ∧
    (∀ (now2 : Int) (dto : CreateEventDto) (db : Db),
      now2 < now + dayMs →
      createEvent now2 reported dto db
        (getStats reported
          (reportedSuspendedStats now reporter reported stats)) =
        .error .forbidden) := by
  have hrr : (getStats reported
      (updateStatsEntry reporter
        (fun s => { s with reportsMade := s.reportsMade + 1 })
        (updateStatsEntry reported
          (fun s => { s with reportsReceived := s.reportsReceived + 1 })
          stats))).reportsReceived =
      (getStats reported stats).reportsReceived + 1 := by
    rw [getStats_update_other reported reporter hne,
      getStats_update_same]
  have hge : (getStats reported
      (updateStatsEntry reporter
        (fun s => { s with reportsMade := s.reportsMade + 1 })
        (updateStatsEntry reported
          (fun s => { s with reportsReceived := s.reportsReceived + 1 })
          stats))).reportsReceived ≥ 5 := by
    rw [hrr]
    exact hcount
  have hS : (getStats reported
      (reportedSuspendedStats now reporter reported stats)).isSuspended =
      true := by
    unfold reportedSuspendedStats
    rw [getStats_update_same]
  have hU : (getStats reported
      (reportedSuspendedStats now reporter reported stats)).suspendedUntil =
      some (now + dayMs) := by
    unfold reportedSuspendedStats
    rw [getStats_update_same]
  refine ⟨?_, hS, hU, ?_⟩
  · simp only [reportUser, hne, reportedSuspendedStats, if_false]
    rw [if_pos hge]
  · intro now2 dto db hlt
    unfold createEvent
    rw [if_pos ?hcond]
    case hcond =>
      rw [hS, hU]
      simp [hlt]

/-- Witness for C10: the fifth report against bob suspends bob until
100 + dayMs, and a createEvent call by bob at time 105 is rejected with a
forbidden error. -/
theorem C10_report_suspension_witness :
    reportUser 100 "alice" "bob" [("bob", { reportsReceived := 4 })] =
      .ok (reportedSuspendedStats 100 "alice" "bob"
        [("bob", { reportsReceived := 4 })]) ∧
    (getStats "bob" (reportedSuspendedStats 100 "alice" "bob"
      [("bob", { reportsReceived := 4 })])).isSuspended = true ∧
    (getStats "bob" (reportedSuspendedStats 100 "alice" "bob"
      [("bob", { reportsReceived := 4 })])).suspendedUntil =
      some (100 + dayMs) ∧
    createEvent 105 "bob" threeHourDto initDb
      (getStats "bob" (reportedSuspendedStats 100 "alice" "bob"
        [("bob", { reportsReceived := 4 })])) = .error .forbidden := by
  have h := C10_report_suspension 100 "alice" "bob"
    [("bob", { reportsReceived := 4 })] (by decide) (by decide)
  exact ⟨h.1, h.2.1, h.2.2.1, h.2.2.2 105 threeHourDto initDb
    (by norm_num [dayMs])⟩

end Mmhw
